import Mathlib

/-!
Verification of the voice-agent MCP server (src/server.ts, two variants).

The file shallowly embeds the availability/booking engine, the knowledge
scorer, the delivery fallback chain and the tool handlers of both server
variants.  Time is modelled as epoch seconds (an `Int`); JavaScript `Date`
methods that depend on the process-local time zone (`setHours`) take the
local UTC offset (in seconds) as an explicit parameter, while methods that
name `"Asia/Kolkata"` explicitly (`toLocaleString` with a `timeZone`
option) use the fixed home offset of +05:30 (19800 seconds).
-/

namespace VoiceAgent

/-- Home-zone offset in seconds: +05:30, the `TIME_ZONE = "Asia/Kolkata"`
constant of `src/server.ts`. -/
def istOffSec : Int := 19800

/-- Seconds since local midnight in the home zone (+05:30) of an epoch
instant; models extracting wall-clock time via
`toLocaleString("en-US", { timeZone: "Asia/Kolkata", ... })`. -/
def secOfDayIST (t : Int) : Int := (t + istOffSec) % 86400

/-- Minutes since midnight, home time; the numeric content of the slot
label built by `toLocaleTimeString("en-US", { timeZone, hour, minute })`. -/
def istMinLabel (t : Int) : Int := secOfDayIST t / 60

/-- The home-zone hour of an instant, as parsed from
`candidateTime.toLocaleString(...)` in `calculateFreeSlots`. -/
def istHourOf (t : Int) : Int := secOfDayIST t / 3600

/-- UTC calendar-day index of an instant: the content of
`toISOString().slice(0,10)`. -/
def utcDayOf (t : Int) : Int := t / 86400

/-- JavaScript `date.setHours(h, m, s)`: rewrites the wall clock of the day
containing `t` in the process-local zone (offset `tz` seconds east of UTC)
and returns the new epoch instant. -/
def jsSetHours (tz t h m s : Int) : Int :=
  (t + tz) - (t + tz) % 86400 + 3600 * h + 60 * m + s - tz

/-- A busy calendar event, as consumed by `calculateFreeSlots`: either a
timed event (`event.start.dateTime` present, half-open `[s, e)` in epoch
seconds) or an all-day event carrying only a calendar date, which parses to
UTC midnight of that civil day. -/
inductive GEvent
  | timed (s e : Int)
  | allDay (day : Int)
deriving DecidableEq, Repr

/-- The `busyEvents.some(...)` membership test of `calculateFreeSlots`:
a timed event covers `t` iff `candidateTime >= eventStart && candidateTime
< eventEnd`; an all-day event matches iff the UTC dates coincide
(`eventStart.toISOString().slice(0,10) === candidateTime.toISOString().slice(0,10)`). -/
def isBusyAt (busy : List GEvent) (t : Int) : Bool :=
  busy.any fun ev =>
    match ev with
    | .timed s e => decide (s ≤ t) && decide (t < e)
    | .allDay d => decide (utcDayOf t = d)

/-- Number of iterations of the `while (candidateTime < endOfDay)` loop:
the count of `k` with `c0 + 1800 * k < last`. -/
def numSteps (c0 last : Int) : Nat :=
  if last ≤ c0 then 0 else (last - c0 - 1).toNat / 1800 + 1

/-- The successive candidate instants visited by the loop (30-minute = 1800
second steps from `c0`). -/
def candidates (c0 : Int) (n : Nat) : List Int :=
  (List.range n).map fun k : Nat => c0 + 1800 * (k : Int)

/-- The per-candidate filter of `calculateFreeSlots`: business hours
(`hour >= 9 && hour < 17` in home time) and not busy. -/
def slotKeep (busy : List GEvent) (t : Int) : Bool :=
  (decide (9 ≤ istHourOf t) && decide (istHourOf t < 17)) && !isBusyAt busy t

/-- `calculateFreeSlots` of the first server variant: `startOfDay` is
`parseIST(dateStr)`; the candidate pointer starts at `setHours(9,0,0,0)`
and the loop bound is `setHours(23,59,59)`, both applied in the
process-local zone `tz`.  Output: the slot labels (minutes past midnight,
home time) of the surviving candidates, in loop order. -/
def calculateFreeSlotsV1 (tz startOfDay : Int) (busy : List GEvent) : List Int :=
  let last := jsSetHours tz startOfDay 23 59 59
  let c0 := jsSetHours tz startOfDay 9 0 0
  ((candidates c0 (numSteps c0 last)).filter (slotKeep busy)).map istMinLabel

/-- `calculateFreeSlots` of the second variant: identical except that the
candidate pointer starts at `startOfDay` itself (`new Date(dateStr)`, UTC
midnight for a bare date) with no initial `setHours(9, ...)`. -/
def calculateFreeSlotsV2 (tz startOfDay : Int) (busy : List GEvent) : List Int :=
  let last := jsSetHours tz startOfDay 23 59 59
  ((candidates startOfDay (numSteps startOfDay last)).filter (slotKeep busy)).map istMinLabel

/-- Epoch instant of 00:00 home time on civil day `d` (days since
1970-01-01): the value `parseIST` produces for the bare date of day `d`. -/
def istMidnight (d : Int) : Int := 86400 * d - istOffSec

/-- The sixteen business-hour ticks of the spec: `09:00, 09:30, …, 16:30`
home time, as minutes past midnight. -/
def istBusinessTicks : List Int :=
  [540, 570, 600, 630, 660, 690, 720, 750, 780, 810, 840, 870, 900, 930, 960, 990]

/-- Absolute epoch instants of the sixteen business-hour ticks on day `d`
(09:00 home time is 12600 seconds past UTC midnight of `d`). -/
def tickAt (d : Int) (k : Nat) : Int := 86400 * d + 12600 + 1800 * (k : Int)

lemma setHours_istMidnight (d h m s : Int) :
    jsSetHours 19800 (istMidnight d) h m s = 86400 * d + 3600 * h + 60 * m + s - 19800 := by
  unfold jsSetHours istMidnight istOffSec
  omega

lemma setHours_utcMidnight (d h m s : Int) :
    jsSetHours 19800 (86400 * d) h m s = 86400 * d + 3600 * h + 60 * m + s - 19800 := by
  unfold jsSetHours
  omega

lemma numSteps_v1 (d : Int) :
    numSteps (86400 * d + 12600) (86400 * d + 66599) = 30 := by
  unfold numSteps
  rw [if_neg (by omega)]
  omega

lemma numSteps_v2 (d : Int) :
    numSteps (86400 * d) (86400 * d + 66599) = 37 := by
  unfold numSteps
  rw [if_neg (by omega)]
  omega

lemma istHourOf_tick (d : Int) (k : Nat) (hk : k < 30) :
    istHourOf (tickAt d k) = (32400 + 1800 * (k : Int)) / 3600 := by
  unfold istHourOf secOfDayIST tickAt istOffSec
  omega

lemma hourOK_tick (d : Int) (k : Nat) (hk : k < 30) :
    (decide (9 ≤ istHourOf (tickAt d k)) && decide (istHourOf (tickAt d k) < 17))
      = decide (k < 16) := by
  rw [istHourOf_tick d k hk, ← Bool.decide_and, decide_eq_decide]
  omega

lemma istMinLabel_tick (d : Int) (k : Nat) (hk : k < 30) :
    istMinLabel (tickAt d k) = 540 + 30 * (k : Int) := by
  unfold istMinLabel secOfDayIST tickAt istOffSec
  omega

/-- Normal form of variant 1's `calculateFreeSlots` when the process-local
zone is the home zone: the sixteen business-hour ticks of the day, filtered
by the busy test, then labelled. -/
lemma freeSlotsV1_norm (d : Int) (busy : List GEvent) :
    calculateFreeSlotsV1 19800 (istMidnight d) busy
      = ((List.range 16).filter (fun k => !isBusyAt busy (tickAt d k))).map
          (fun k => istMinLabel (tickAt d k)) := by
  unfold calculateFreeSlotsV1
  rw [show jsSetHours 19800 (istMidnight d) 23 59 59 = 86400 * d + 66599 from by
        rw [setHours_istMidnight]; ring,
      show jsSetHours 19800 (istMidnight d) 9 0 0 = 86400 * d + 12600 from by
        rw [setHours_istMidnight]; ring]
  dsimp only
  rw [numSteps_v1]
  unfold candidates
  rw [List.filter_map, List.map_map]
  have hcand : ∀ k : Nat, (fun k : Nat => 86400 * d + 12600 + 1800 * (k : Int)) k = tickAt d k := by
    intro k; unfold tickAt; ring
  have hfil : ((List.range 30).filter
        (slotKeep busy ∘ fun k : Nat => 86400 * d + 12600 + 1800 * (k : Int)))
      = (List.range 30).filter (fun k => decide (k < 16) && !isBusyAt busy (tickAt d k)) := by
    apply List.filter_congr
    intro k hk
    have hk30 : k < 30 := List.mem_range.mp hk
    simp only [Function.comp, hcand, slotKeep]
    rw [hourOK_tick d k hk30]
  rw [hfil]
  have hsplit : (List.range 30).filter (fun k => decide (k < 16) && !isBusyAt busy (tickAt d k))
      = ((List.range 30).filter (fun k => decide (k < 16))).filter
          (fun k => !isBusyAt busy (tickAt d k)) := by
    rw [List.filter_filter]
    apply List.filter_congr
    intro k _
    rw [Bool.and_comm]
  rw [hsplit,
      show (List.range 30).filter (fun k => decide (k < 16)) = List.range 16 from by decide]
  apply List.map_congr_left
  intro k hk
  simp only [Function.comp, hcand]

/-- Normal form of variant 2's `calculateFreeSlots` under the home-zone
process assumption: the same sixteen ticks (the loop starts at UTC midnight
but the business-hour filter keeps exactly ticks 7..22 of its 37 steps). -/
lemma freeSlotsV2_norm (d : Int) (busy : List GEvent) :
    calculateFreeSlotsV2 19800 (86400 * d) busy
      = ((List.range 16).filter (fun k => !isBusyAt busy (tickAt d k))).map
          (fun k => istMinLabel (tickAt d k)) := by
  unfold calculateFreeSlotsV2
  rw [show jsSetHours 19800 (86400 * d) 23 59 59 = 86400 * d + 66599 from by
        rw [setHours_utcMidnight]; ring]
  dsimp only
  rw [numSteps_v2]
  unfold candidates
  rw [List.filter_map, List.map_map]
  have hhour : ∀ k : Nat, k < 37 →
      (decide (9 ≤ istHourOf (86400 * d + 1800 * (k : Int))) &&
        decide (istHourOf (86400 * d + 1800 * (k : Int)) < 17)) = decide (7 ≤ k ∧ k < 23) := by
    intro k hk
    have hh : istHourOf (86400 * d + 1800 * (k : Int)) = (19800 + 1800 * (k : Int)) / 3600 := by
      unfold istHourOf secOfDayIST istOffSec
      omega
    rw [hh, ← Bool.decide_and, decide_eq_decide]
    omega
  have hfil : ((List.range 37).filter
        (slotKeep busy ∘ fun k : Nat => 86400 * d + 1800 * (k : Int)))
      = (List.range 37).filter
          (fun k : Nat => decide (7 ≤ k ∧ k < 23) && !isBusyAt busy (86400 * d + 1800 * (k : Int))) := by
    apply List.filter_congr
    intro k hk
    have hk37 : k < 37 := List.mem_range.mp hk
    simp only [Function.comp, slotKeep]
    rw [hhour k hk37]
  rw [hfil]
  have hsplit : (List.range 37).filter
        (fun k : Nat => decide (7 ≤ k ∧ k < 23) && !isBusyAt busy (86400 * d + 1800 * (k : Int)))
      = ((List.range 37).filter (fun k => decide (7 ≤ k ∧ k < 23))).filter
          (fun k : Nat => !isBusyAt busy (86400 * d + 1800 * (k : Int))) := by
    rw [List.filter_filter]
    apply List.filter_congr
    intro k _
    rw [Bool.and_comm]
  rw [hsplit,
      show (List.range 37).filter (fun k => decide (7 ≤ k ∧ k < 23))
          = (List.range 16).map (fun k => k + 7) from by decide,
      List.filter_map, List.map_map]
  have htick : ∀ k : Nat, k ∈ List.range 16 →
      (86400 * d + 1800 * (((k + 7 : Nat)) : Int)) = tickAt d k := by
    intro k _
    unfold tickAt
    push_cast
    ring
  have hfil2 : ((List.range 16).filter
        ((fun k : Nat => !isBusyAt busy (86400 * d + 1800 * (k : Int))) ∘ fun k : Nat => k + 7))
      = (List.range 16).filter (fun k => !isBusyAt busy (tickAt d k)) := by
    apply List.filter_congr
    intro k hk
    simp only [Function.comp]
    rw [htick k hk]
  rw [hfil2]
  apply List.map_congr_left
  intro k hk
  simp only [Function.comp]
  rw [htick k (by
    have := List.mem_filter.mp hk
    exact this.1)]

lemma utcDayOf_tick (d : Int) (k : Nat) (hk : k < 30) : utcDayOf (tickAt d k) = d := by
  unfold utcDayOf tickAt
  omega

lemma isBusyAt_nil (t : Int) : isBusyAt [] t = false := rfl

lemma isBusyAt_cons (ev : GEvent) (busy : List GEvent) (t : Int) :
    isBusyAt (ev :: busy) t
      = ((match ev with
          | .timed s e => decide (s ≤ t) && decide (t < e)
          | .allDay d => decide (utcDayOf t = d)) || isBusyAt busy t) := by
  unfold isBusyAt
  rw [List.any_cons]

lemma isBusyAt_timed_mem (busy : List GEvent) (t s e : Int)
    (hmem : GEvent.timed s e ∈ busy) (hs : s ≤ t) (he : t < e) :
    isBusyAt busy t = true := by
  unfold isBusyAt
  rw [List.any_eq_true]
  refine ⟨GEvent.timed s e, hmem, ?_⟩
  simp [hs, he]

/-- C3: with the process running in the home zone, both variants of
`calculateFreeSlots` return, for any calendar day with an empty busy set,
exactly the sixteen slots 09:00, 09:30, …, 16:30 home time, in increasing
order. -/
theorem C3_free_slots_empty_busy (d : Int) :
    calculateFreeSlotsV1 19800 (istMidnight d) [] = istBusinessTicks
      ∧ calculateFreeSlotsV2 19800 (86400 * d) [] = istBusinessTicks
      ∧ istBusinessTicks.length = 16
      ∧ List.Pairwise (fun a b : Int => a < b) istBusinessTicks := by
  have hlab : ∀ k ∈ List.range 16, istMinLabel (tickAt d k) = 540 + 30 * (k : Int) := by
    intro k hk
    exact istMinLabel_tick d k (by have := List.mem_range.mp hk; omega)
  have hkeep : ∀ k ∈ List.range 16, (!isBusyAt [] (tickAt d k)) = (fun _ : Nat => true) k := by
    intro k _
    rfl
  refine ⟨?_, ?_, by decide, by decide⟩
  · rw [freeSlotsV1_norm, List.filter_congr hkeep, List.filter_true,
        List.map_congr_left hlab]
    decide
  · rw [freeSlotsV2_norm, List.filter_congr hkeep, List.filter_true,
        List.map_congr_left hlab]
    decide

/-- C4: for busy intervals lying fully inside business hours, a business
tick is present in the output exactly when no busy interval covers it under
half-open `[s, e)` semantics; an all-day event dated the queried day
removes every candidate, and one dated another day removes none. -/
theorem C4_half_open_exclusion (d : Int) (busy : List GEvent)
    (h : ∀ ev ∈ busy, ∃ s e : Int, ev = GEvent.timed s e ∧
          86400 * d + 12600 ≤ s ∧ e ≤ 86400 * d + 41400) :
    (∀ k : Nat, k < 16 →
        ((540 + 30 * (k : Int)) ∈ calculateFreeSlotsV1 19800 (istMidnight d) busy
          ↔ ¬ ∃ s e : Int, GEvent.timed s e ∈ busy ∧ s ≤ tickAt d k ∧ tickAt d k < e))
      ∧ calculateFreeSlotsV1 19800 (istMidnight d) (GEvent.allDay d :: busy) = []
      ∧ (∀ d' : Int, d' ≠ d →
          calculateFreeSlotsV1 19800 (istMidnight d) (GEvent.allDay d' :: busy)
            = calculateFreeSlotsV1 19800 (istMidnight d) busy) := by
  refine ⟨?_, ?_, ?_⟩
  · intro k hk
    rw [freeSlotsV1_norm]
    constructor
    · intro hmem hcov
      obtain ⟨s, e, hsm, hs, he⟩ := hcov
      obtain ⟨j, hjf, hlab⟩ := List.mem_map.mp hmem
      obtain ⟨hj16, hjb⟩ := List.mem_filter.mp hjf
      have hj : j < 16 := List.mem_range.mp hj16
      have hjk : j = k := by
        rw [istMinLabel_tick d j (by omega)] at hlab
        omega
      subst hjk
      rw [isBusyAt_timed_mem busy (tickAt d j) s e hsm hs he] at hjb
      exact absurd hjb (by decide)
    · intro hnc
      apply List.mem_map.mpr
      refine ⟨k, List.mem_filter.mpr ⟨List.mem_range.mpr hk, ?_⟩,
        istMinLabel_tick d k (by omega)⟩
      rw [Bool.not_eq_true']
      rw [← Bool.not_eq_true]
      intro hb
      unfold isBusyAt at hb
      obtain ⟨ev, hevm, hevt⟩ := List.any_eq_true.mp hb
      obtain ⟨s, e, rfl, _, _⟩ := h ev hevm
      simp only [Bool.and_eq_true, decide_eq_true_eq] at hevt
      exact hnc ⟨s, e, hevm, hevt.1, hevt.2⟩
  · rw [freeSlotsV1_norm]
    have : (List.range 16).filter (fun k => !isBusyAt (GEvent.allDay d :: busy) (tickAt d k))
        = [] := by
      rw [List.filter_eq_nil_iff]
      intro k hk
      have hk16 : k < 16 := List.mem_range.mp hk
      rw [isBusyAt_cons]
      simp [utcDayOf_tick d k (by omega)]
    rw [this]
    rfl
  · intro d' hne
    rw [freeSlotsV1_norm, freeSlotsV1_norm]
    congr 1
    apply List.filter_congr
    intro k hk
    have hk16 : k < 16 := List.mem_range.mp hk
    rw [isBusyAt_cons]
    have : utcDayOf (tickAt d k) = d := utcDayOf_tick d k (by omega)
    simp [this, hne.symm]

/-- Witness for C4: on day 0, a busy interval 09:30–10:00 home time
(seconds 14400–16200 of the day) removes exactly the 09:30 tick. -/
theorem C4_half_open_exclusion_witness :
    ¬ ((540 + 30 * ((1 : Nat) : Int)) ∈
        calculateFreeSlotsV1 19800 (istMidnight 0) [GEvent.timed 14400 16200]) := by
  have hh : ∀ ev ∈ [GEvent.timed 14400 16200], ∃ s e : Int, ev = GEvent.timed s e ∧
      86400 * 0 + 12600 ≤ s ∧ e ≤ 86400 * 0 + 41400 := by
    intro ev hev
    rw [List.mem_singleton.mp hev]
    exact ⟨14400, 16200, rfl, by decide, by decide⟩
  intro hmem
  exact ((C4_half_open_exclusion 0 [GEvent.timed 14400 16200] hh).1 1 (by decide)).mp hmem
    ⟨14400, 16200, by decide, by decide, by decide⟩

/-! ### The time-zone normalizer `parseIST` (variant 1, lines 53–57)

`parseIST` strips a trailing `Z` (regex `/Z$/`) and then a trailing offset
marker (regex `/([+-]\d{2}:?\d{2})$/`), pads a bare date with `T00:00:00`,
appends the fixed home offset `+05:30` and hands the result to `new Date`.
`jsIsoParse` models `new Date` on the second-precision ISO grammar with an
explicit offset that `parseIST` produces; other shapes yield an invalid
date (`none`). -/

/-- The `\d` character class. -/
def isDigC (c : Char) : Bool := decide ('0' ≤ c) && decide (c ≤ '9')

/-- The `[+-]` character class. -/
def isSignC (c : Char) : Bool := decide (c = '+') || decide (c = '-')

/-- Numeric value of a digit character. -/
def digVal (c : Char) : Int := (c.toNat : Int) - 48

/-- `str.replace(/Z$/, '')`: drop one trailing `Z`. -/
def stripZc (cs : List Char) : List Char :=
  match cs.reverse with
  | c :: r => if c = 'Z' then r.reverse else cs
  | [] => cs

/-- Length of the suffix matched by `/([+-]\d{2}:?\d{2})$/`: 6 for a
`±hh:mm` tail, else 5 for a `±hhmm` tail, else 0 (the regex prefers the
earlier-starting, colon-bearing match). -/
def offSuffixLen (cs : List Char) : Nat :=
  match cs.reverse with
  | e1 :: e2 :: e3 :: e4 :: e5 :: rest =>
      if isDigC e1 && isDigC e2 && decide (e3 = ':') && isDigC e4 && isDigC e5 &&
          (match rest with | s :: _ => isSignC s | [] => false) then 6
      else if isDigC e1 && isDigC e2 && isDigC e3 && isDigC e4 && isSignC e5 then 5
      else 0
  | _ => 0

/-- `str.replace(/([+-]\d{2}:?\d{2})$/, '')`. -/
def stripOffc (cs : List Char) : List Char :=
  (cs.reverse.drop (offSuffixLen cs)).reverse

/-- `if (clean.length <= 10) clean += "T00:00:00"`. -/
def padTc (cs : List Char) : List Char :=
  if cs.length ≤ 10 then cs ++ ['T', '0', '0', ':', '0', '0', ':', '0', '0'] else cs

/-- The cleaned wall-clock string of `parseIST`. -/
def cleanIST (cs : List Char) : List Char := stripOffc (stripZc cs)

/-- Gregorian leap-year test. -/
def isLeapY (y : Int) : Bool := (y % 4 == 0 && y % 100 != 0) || y % 400 == 0

/-- Days in a month of the proleptic Gregorian calendar. -/
def daysInMonth (y m : Int) : Int :=
  if m = 2 then (if isLeapY y then 29 else 28)
  else if m = 4 ∨ m = 6 ∨ m = 9 ∨ m = 11 then 30
  else 31

/-- Civil date to days since 1970-01-01 (standard era/year-of-era
computation, floor division). -/
def daysFromCivil (y m d : Int) : Int :=
  let y2 := if m ≤ 2 then y - 1 else y
  let era := y2 / 400
  let yoe := y2 - era * 400
  let doy := (153 * (m + (if 2 < m then -3 else 9)) + 2) / 5 + d - 1
  let doe := yoe * 365 + yoe / 4 - yoe / 100 + doy
  era * 146097 + doe - 719468

/-- `new Date(s)` on the fully explicit second-precision ISO shape
`YYYY-MM-DDTHH:MM:SS±hh:mm`; every other shape is an invalid date.
Returns epoch seconds. -/
def jsIsoParse (cs : List Char) : Option Int :=
  match cs with
  | [y1, y2, y3, y4, '-', mo1, mo2, '-', d1, d2, 'T',
     h1, h2, ':', mi1, mi2, ':', s1, s2, sg, o1, o2, ':', o3, o4] =>
      if isDigC y1 && isDigC y2 && isDigC y3 && isDigC y4 &&
          isDigC mo1 && isDigC mo2 && isDigC d1 && isDigC d2 &&
          isDigC h1 && isDigC h2 && isDigC mi1 && isDigC mi2 &&
          isDigC s1 && isDigC s2 && isSignC sg &&
          isDigC o1 && isDigC o2 && isDigC o3 && isDigC o4 then
        let y := 1000 * digVal y1 + 100 * digVal y2 + 10 * digVal y3 + digVal y4
        let mo := 10 * digVal mo1 + digVal mo2
        let dy := 10 * digVal d1 + digVal d2
        let hh := 10 * digVal h1 + digVal h2
        let mi := 10 * digVal mi1 + digVal mi2
        let ss := 10 * digVal s1 + digVal s2
        let oh := 10 * digVal o1 + digVal o2
        let om := 10 * digVal o3 + digVal o4
        if 1 ≤ mo ∧ mo ≤ 12 ∧ 1 ≤ dy ∧ dy ≤ daysInMonth y mo ∧
            hh ≤ 23 ∧ mi ≤ 59 ∧ ss ≤ 59 ∧ oh ≤ 23 ∧ om ≤ 59 then
          some (86400 * daysFromCivil y mo dy + 3600 * hh + 60 * mi + ss
            - (if sg = '+' then 1 else -1) * (3600 * oh + 60 * om))
        else none
      else none
  | _ => none

/-- `parseIST` on a character list: strip markers, pad a bare date, append
the fixed home offset `+05:30`, parse. -/
def parseISTc (cs : List Char) : Option Int :=
  jsIsoParse (padTc (cleanIST cs) ++ ['+', '0', '5', ':', '3', '0'])

/-- `parseIST(dateStr)` of variant 1 (epoch seconds; `none` is an invalid
date). -/
def parseIST (s : String) : Option Int := parseISTc s.data

/-- An offset/UTC marker a client may attach to a timestamp: `Z`, `±hh:mm`
or `±hhmm`. -/
inductive TZMark
  | zulu
  | offCol (sg a b c d : Char)
  | offBare (sg a b c d : Char)

/-- The characters of a marker. -/
def TZMark.chars : TZMark → List Char
  | .zulu => ['Z']
  | .offCol sg a b c d => [sg, a, b, ':', c, d]
  | .offBare sg a b c d => [sg, a, b, c, d]

/-- Well-formedness of a marker: a sign followed by digits. -/
def TZMark.wf : TZMark → Bool
  | .zulu => true
  | .offCol sg a b c d => isSignC sg && isDigC a && isDigC b && isDigC c && isDigC d
  | .offBare sg a b c d => isSignC sg && isDigC a && isDigC b && isDigC c && isDigC d

lemma digit_ne_Z {c : Char} (h : isDigC c = true) : ¬ (c = 'Z') := by
  intro he
  subst he
  exact absurd h (by decide)

lemma digit_not_colon {c : Char} (h : isDigC c = true) : (c = ':') = False := by
  simp only [eq_iff_iff, iff_false]
  intro he
  subst he
  exact absurd h (by decide)

lemma stripZc_append_Z (w : List Char) : stripZc (w ++ ['Z']) = w := by
  simp [stripZc, List.reverse_append]

lemma stripZc_last_digit (u : List Char) (c : Char) (h : isDigC c = true) :
    stripZc (u ++ [c]) = u ++ [c] := by
  simp [stripZc, List.reverse_append, digit_ne_Z h]

lemma offLen_col (w : List Char) (sg a b c d : Char) (hs : isSignC sg = true)
    (ha : isDigC a = true) (hb : isDigC b = true) (hc : isDigC c = true)
    (hd : isDigC d = true) :
    offSuffixLen (w ++ [sg, a, b, ':', c, d]) = 6 := by
  simp [offSuffixLen, List.reverse_append, ha, hb, hc, hd, hs]

lemma offLen_bare (w : List Char) (sg a b c d : Char) (hs : isSignC sg = true)
    (ha : isDigC a = true) (hb : isDigC b = true) (hc : isDigC c = true)
    (hd : isDigC d = true) :
    offSuffixLen (w ++ [sg, a, b, c, d]) = 5 := by
  simp [offSuffixLen, List.reverse_append, ha, hb, hc, hd, hs, digit_not_colon hb]

lemma stripOffc_of_len_zero (w : List Char) (h : offSuffixLen w = 0) :
    stripOffc w = w := by
  unfold stripOffc
  rw [h]
  simp

lemma stripOffc_col (w : List Char) (sg a b c d : Char) (hs : isSignC sg = true)
    (ha : isDigC a = true) (hb : isDigC b = true) (hc : isDigC c = true)
    (hd : isDigC d = true) :
    stripOffc (w ++ [sg, a, b, ':', c, d]) = w := by
  unfold stripOffc
  rw [offLen_col w sg a b c d hs ha hb hc hd]
  simp [List.reverse_append]

lemma stripOffc_bare (w : List Char) (sg a b c d : Char) (hs : isSignC sg = true)
    (ha : isDigC a = true) (hb : isDigC b = true) (hc : isDigC c = true)
    (hd : isDigC d = true) :
    stripOffc (w ++ [sg, a, b, c, d]) = w := by
  unfold stripOffc
  rw [offLen_bare w sg a b c d hs ha hb hc hd]
  simp [List.reverse_append]

lemma cleanIST_marker (w : List Char) (mk : TZMark) (hwf : mk.wf = true)
    (hz : stripZc w = w) (ho : offSuffixLen w = 0) :
    cleanIST (w ++ mk.chars) = w ∧ cleanIST w = w := by
  have hw : cleanIST w = w := by
    unfold cleanIST
    rw [hz, stripOffc_of_len_zero w ho]
  refine ⟨?_, hw⟩
  cases mk with
  | zulu =>
      unfold cleanIST TZMark.chars
      rw [stripZc_append_Z, stripOffc_of_len_zero w ho]
  | offCol sg a b c d =>
      simp only [TZMark.wf, Bool.and_eq_true] at hwf
      obtain ⟨⟨⟨⟨hs, ha⟩, hb⟩, hc⟩, hd⟩ := hwf
      unfold cleanIST TZMark.chars
      rw [show w ++ [sg, a, b, ':', c, d] = (w ++ [sg, a, b, ':', c]) ++ [d] from by simp,
          stripZc_last_digit _ d hd,
          show (w ++ [sg, a, b, ':', c]) ++ [d] = w ++ [sg, a, b, ':', c, d] from by simp,
          stripOffc_col w sg a b c d hs ha hb hc hd]
  | offBare sg a b c d =>
      simp only [TZMark.wf, Bool.and_eq_true] at hwf
      obtain ⟨⟨⟨⟨hs, ha⟩, hb⟩, hc⟩, hd⟩ := hwf
      unfold cleanIST TZMark.chars
      rw [show w ++ [sg, a, b, c, d] = (w ++ [sg, a, b, c]) ++ [d] from by simp,
          stripZc_last_digit _ d hd,
          show (w ++ [sg, a, b, c]) ++ [d] = w ++ [sg, a, b, c, d] from by simp,
          stripOffc_bare w sg a b c d hs ha hb hc hd]

/-- C5: the normalizer strips a trailing offset/UTC marker and interprets
the remaining wall clock in the fixed home offset +05:30; in particular a
bare date and the same instant written with an explicit `+05:30` offset
normalize to the same (valid) instant. -/
theorem C5_normalizer_strips_marker :
    (∀ (w : List Char) (mk : TZMark), mk.wf = true →
        stripZc w = w → offSuffixLen w = 0 →
        parseISTc (w ++ mk.chars) = parseISTc w
          ∧ parseISTc w = jsIsoParse (padTc w ++ ['+', '0', '5', ':', '3', '0']))
      ∧ parseIST "2024-03-01" = parseIST "2024-03-01T00:00:00+05:30"
      ∧ (parseIST "2024-03-01").isSome = true := by
  refine ⟨?_, by decide, by decide⟩
  intro w mk hwf hz ho
  obtain ⟨h1, h2⟩ := cleanIST_marker w mk hwf hz ho
  constructor
  · unfold parseISTc
    rw [h1, h2]
  · unfold parseISTc
    rw [h2]

/-- Witness for C5: stripping the `+05:30` marker from a concrete
timestamp leaves its normalization unchanged. -/
theorem C5_normalizer_strips_marker_witness :
    parseISTc ("2024-03-01T00:00:00".data ++ (TZMark.offCol '+' '0' '5' '3' '0').chars)
      = parseISTc "2024-03-01T00:00:00".data :=
  ((C5_normalizer_strips_marker.1 "2024-03-01T00:00:00".data
    (TZMark.offCol '+' '0' '5' '3' '0') (by decide) (by decide) (by decide)).1)

/-! ### Booking (`book_appointment`, both variants) and the email relay -/

/-- Whether an exception-carrying computation finished normally. -/
def exOk {ε α : Type} : Except ε α → Bool
  | .ok _ => true
  | .error _ => false

/-- Total stand-in for `toLocaleTimeString("en-US", { timeZone })`: renders
the home-time minutes of the instant. -/
def fmtTimeIST (t : Int) : String := toString (istMinLabel t)

/-- `sendEmailViaRelay` (variant 1, lines 117–125): returns immediately
when `EMAIL_WEBHOOK_URL` is empty, otherwise performs the fetch inside
`try/catch`, swallowing any failure.  The `Bool` records whether the relay
call went through; the `Except` layer is the function's own exception
behaviour. -/
def sendEmailViaRelay (url : String) (fetchRes : Except Unit Unit) : Except Unit Bool :=
  if url = "" then Except.ok false
  else Except.ok (match fetchRes with | .ok _ => true | .error _ => false)

/-- The success reply of variant 1's `book_appointment`. -/
def successTextV1 (t : Int) : String :=
  "Success. Booked for " ++ fmtTimeIST t ++ " IST."

/-- `book_appointment` (variant 1, lines 159–188).  `cal` is the external
calendar's event list; `insertRes` the outcome of `calendar.events.insert`;
`url`/`fetchRes` drive the confirmation relay.  The whole body sits in one
`try/catch` whose handler replies "Error booking slot.".  Note there is no
conflict check: the busy events in `cal` are never consulted. -/
def bookAppointmentV1 (dateTime : String) (cal : List GEvent)
    (insertRes : Except Unit Unit) (url : String) (fetchRes : Except Unit Unit) :
    String × List GEvent :=
  match parseIST dateTime with
  | none => ("Error booking slot.", cal)
  | some s =>
    match insertRes with
    | .error _ => ("Error booking slot.", cal)
    | .ok _ =>
      let cal2 := cal ++ [GEvent.timed s (s + 30 * 60)]
      match sendEmailViaRelay url fetchRes with
      | .error _ => ("Error booking slot.", cal2)
      | .ok _ => (successTextV1 s, cal2)

/-- `book_appointment` (variant 2, lines 421–448): `new Date(dateTime)` is
passed in as its parse result; the email step has its own inner
`try/catch` distinguishing the two success replies. -/
def bookAppointmentV2 (start? : Option Int) (cal : List GEvent)
    (insertRes : Except Unit Unit) (mailRes : Except Unit Unit) :
    String × List GEvent :=
  match start? with
  | none => ("Error booking slot.", cal)
  | some s =>
    match insertRes with
    | .error _ => ("Error booking slot.", cal)
    | .ok _ =>
      let cal2 := cal ++ [GEvent.timed s (s + 30 * 60)]
      match mailRes with
      | .ok _ => ("Success. Booked and emailed.", cal2)
      | .error _ => ("Booked on calendar (Email failed).", cal2)

/-- Modelled from the spec: the Conflict Checker contract `wouldConflict`
of §4.3 (`proposed.start < busy.end AND proposed.end > busy.start`; an
all-day busy interval conflicts with any proposed interval sharing its
calendar date).  No observed variant implements this check. -/
def specWouldConflict (ps pe : Int) (busy : List GEvent) : Bool :=
  busy.any fun ev =>
    match ev with
    | .timed s e => decide (ps < e) && decide (pe > s)
    | .allDay d => decide (utcDayOf ps = d)

/-- A calendar holding one busy interval 10:15–10:45 home time on
2024-03-01 (day 19783). -/
def conflictBusy : List GEvent :=
  [GEvent.timed (86400 * 19783 + 17100) (86400 * 19783 + 18900)]

/-- C1: `book_appointment` performs no conflict check.  The proposal
10:00–10:30 home time on 2024-03-01 overlaps the existing 10:15–10:45 busy
interval, yet variant 1 inserts the event and replies with the success
text instead of reporting a conflict and refusing. -/
theorem C1_booking_ignores_conflicts :
    specWouldConflict (86400 * 19783 + 16200) (86400 * 19783 + 18000) conflictBusy = true
      ∧ bookAppointmentV1 "2024-03-01T10:00:00" conflictBusy (Except.ok ()) "" (Except.ok ())
          = (successTextV1 (86400 * 19783 + 16200),
             conflictBusy ++ [GEvent.timed (86400 * 19783 + 16200) (86400 * 19783 + 18000)]) := by
  constructor
  · decide
  · decide

/-- C8: every booking either variant creates spans exactly 30 minutes:
the inserted event ends `30 * 60` seconds after it starts. -/
theorem C8_default_duration (ds : String) (s : Int) (hp : parseIST ds = some s) :
    (∀ (cal : List GEvent) (url : String) (fr : Except Unit Unit),
        (bookAppointmentV1 ds cal (Except.ok ()) url fr).2
          = cal ++ [GEvent.timed s (s + 30 * 60)])
      ∧ (∀ (s' : Int) (cal : List GEvent) (mr : Except Unit Unit),
          (bookAppointmentV2 (some s') cal (Except.ok ()) mr).2
            = cal ++ [GEvent.timed s' (s' + 30 * 60)]) := by
  constructor
  · intro cal url fr
    unfold bookAppointmentV1 sendEmailViaRelay
    rw [hp]
    by_cases hu : url = "" <;> cases fr <;> simp [hu]
  · intro s' cal mr
    cases mr <;> rfl

/-- Witness for C8: booking 10:00 home time on 2024-03-01 inserts an event
ending 30 minutes later. -/
theorem C8_default_duration_witness :
    (bookAppointmentV1 "2024-03-01T10:00:00" [] (Except.ok ()) "" (Except.ok ())).2
      = [] ++ [GEvent.timed (86400 * 19783 + 16200) (86400 * 19783 + 16200 + 30 * 60)] :=
  (C8_default_duration "2024-03-01T10:00:00" (86400 * 19783 + 16200) (by decide)).1
    [] "" (Except.ok ())

/-- C9: variant 1's `sendEmailViaRelay` never raises (`exOk` always) and is
a no-op without a webhook URL; consequently, once the calendar insert
succeeds, `book_appointment` replies with the success text and keeps the
inserted event no matter what the email relay does. -/
theorem C9_email_failure_harmless :
    (∀ (url : String) (fr : Except Unit Unit), exOk (sendEmailViaRelay url fr) = true)
      ∧ (∀ fr : Except Unit Unit, sendEmailViaRelay "" fr = Except.ok false)
      ∧ (∀ (ds : String) (s : Int) (cal : List GEvent) (url1 url2 : String)
          (fr1 fr2 : Except Unit Unit), parseIST ds = some s →
            bookAppointmentV1 ds cal (Except.ok ()) url1 fr1
              = (successTextV1 s, cal ++ [GEvent.timed s (s + 30 * 60)])
            ∧ bookAppointmentV1 ds cal (Except.ok ()) url1 fr1
                = bookAppointmentV1 ds cal (Except.ok ()) url2 fr2) := by
  refine ⟨?_, ?_, ?_⟩
  · intro url fr
    unfold sendEmailViaRelay exOk
    by_cases hu : url = "" <;> simp [hu]
  · intro fr
    rfl
  · intro ds s cal url1 url2 fr1 fr2 hp
    have hgen : ∀ (url : String) (fr : Except Unit Unit),
        bookAppointmentV1 ds cal (Except.ok ()) url fr
          = (successTextV1 s, cal ++ [GEvent.timed s (s + 30 * 60)]) := by
      intro url fr
      unfold bookAppointmentV1 sendEmailViaRelay
      rw [hp]
      by_cases hu : url = "" <;> cases fr <;> simp [hu]
    exact ⟨hgen url1 fr1, (hgen url1 fr1).trans (hgen url2 fr2).symm⟩

/-- Witness for C9: a failing relay fetch still yields the success reply
and the inserted event. -/
theorem C9_email_failure_harmless_witness :
    bookAppointmentV1 "2024-03-01T10:00:00" [] (Except.ok ()) "hook" (Except.error ())
      = (successTextV1 (86400 * 19783 + 16200),
         [] ++ [GEvent.timed (86400 * 19783 + 16200) (86400 * 19783 + 16200 + 30 * 60)]) :=
  (C9_email_failure_harmless.2.2 "2024-03-01T10:00:00" (86400 * 19783 + 16200) []
    "hook" "hook" (Except.error ()) (Except.error ()) (by decide)).1

/-! ### Knowledge scorer (`search_knowledge_base`, identical in both
variants, lines 191–200 and 450–459) -/

/-- `String.prototype.toLowerCase`, character-wise (ASCII). -/
def toLowerL (cs : List Char) : List Char := cs.map Char.toLower

/-- Needle is a prefix of hay. -/
def isPre : List Char → List Char → Bool
  | [], _ => true
  | _ :: _, [] => false
  | n :: ns, h :: hs => decide (n = h) && isPre ns hs

/-- `hay.includes(ndl)`: the needle occurs as a contiguous substring. -/
def subInc : List Char → List Char → Bool
  | hay, ndl =>
    isPre ndl hay ||
      match hay with
      | [] => false
      | _ :: t => subInc t ndl

/-- `str.split(" ")`: split at every single space, keeping empty
segments. -/
def splitSp : List Char → List (List Char)
  | [] => [[]]
  | c :: rest =>
      match splitSp rest with
      | [] => [[c]]
      | h :: t => if c = ' ' then [] :: h :: t else (c :: h) :: t

/-- A loaded document: `{ filename, content }`. -/
structure DocRec where
  filename : String
  content : String
deriving DecidableEq, Repr

/-- A document with its query score (`{ ...doc, score }`). -/
structure SDoc where
  doc : DocRec
  score : Nat
deriving DecidableEq, Repr

/-- `query.toLowerCase().split(" ").filter(w => w.length > 3)`. -/
def keywordsOf (q : String) : List (List Char) :=
  (splitSp (toLowerL q.data)).filter fun w => decide (3 < w.length)

/-- The score accumulated by `keywords.forEach(word => { if
(doc.content.toLowerCase().includes(word)) score++; })`: one increment per
keyword-list entry whose text occurs in the document. -/
def scoreOf (q : String) (d : DocRec) : Nat :=
  (keywordsOf q).countP fun w => subInc (toLowerL d.content.data) w

/-- The scored corpus after `.map(...)...filter(doc => doc.score > 0)`. -/
def scoredFiltered (q : String) (corpus : List DocRec) : List SDoc :=
  (corpus.map fun d => SDoc.mk d (scoreOf q d)).filter fun x => decide (0 < x.score)

/-- Stable insertion into a score-descending list (the earlier element wins
ties), matching the stable JavaScript `sort((a, b) => b.score - a.score)`. -/
def insDesc (x : SDoc) : List SDoc → List SDoc
  | [] => [x]
  | y :: ys => if y.score ≤ x.score then x :: y :: ys else y :: insDesc x ys

/-- Stable descending sort by score. -/
def sortDesc : List SDoc → List SDoc
  | [] => []
  | x :: xs => insDesc x (sortDesc xs)

/-- The full `search_knowledge_base` ranking pipeline:
`map score → filter positive → stable sort descending → slice(0, 3)`. -/
def searchResults (q : String) (corpus : List DocRec) : List SDoc :=
  (sortDesc (scoredFiltered q corpus)).take 3

lemma mem_insDesc {x a : SDoc} {l : List SDoc} :
    a ∈ insDesc x l ↔ a = x ∨ a ∈ l := by
  induction l with
  | nil => simp [insDesc]
  | cons y ys ih =>
      unfold insDesc
      by_cases hle : y.score ≤ x.score
      · simp [hle]
      · simp only [if_neg hle, List.mem_cons, ih]
        tauto

lemma mem_sortDesc {a : SDoc} {l : List SDoc} : a ∈ sortDesc l ↔ a ∈ l := by
  induction l with
  | nil => simp [sortDesc]
  | cons x xs ih =>
      unfold sortDesc
      rw [mem_insDesc, ih]
      simp

lemma pairwise_insDesc {x : SDoc} {l : List SDoc}
    (h : List.Pairwise (fun a b : SDoc => b.score ≤ a.score) l) :
    List.Pairwise (fun a b : SDoc => b.score ≤ a.score) (insDesc x l) := by
  induction l with
  | nil => simp [insDesc]
  | cons y ys ih =>
      rw [List.pairwise_cons] at h
      obtain ⟨hy, hys⟩ := h
      unfold insDesc
      by_cases hle : y.score ≤ x.score
      · rw [if_pos hle, List.pairwise_cons]
        refine ⟨?_, List.Pairwise.cons hy hys⟩
        intro z hz
        rcases List.mem_cons.mp hz with rfl | hz2
        · exact hle
        · exact le_trans (hy z hz2) hle
      · rw [if_neg hle, List.pairwise_cons]
        refine ⟨?_, ih hys⟩
        intro z hz
        rcases mem_insDesc.mp hz with rfl | hz2
        · omega
        · exact hy z hz2

lemma sortDesc_sorted (l : List SDoc) :
    List.Pairwise (fun a b : SDoc => b.score ≤ a.score) (sortDesc l) := by
  induction l with
  | nil => simp [sortDesc]
  | cons x xs ih => exact pairwise_insDesc ih

lemma filter_insDesc (x : SDoc) (l : List SDoc) (s : Nat) :
    (insDesc x l).filter (fun y => decide (y.score = s))
      = if x.score = s then x :: l.filter (fun y => decide (y.score = s))
        else l.filter (fun y => decide (y.score = s)) := by
  induction l with
  | nil =>
      by_cases hx : x.score = s <;> simp [insDesc, hx]
  | cons y ys ih =>
      unfold insDesc
      by_cases hle : y.score ≤ x.score
      · rw [if_pos hle]
        by_cases hx : x.score = s <;> by_cases hy : y.score = s <;>
          simp [List.filter_cons, hx, hy]
      · rw [if_neg hle]
        have hxy : x.score < y.score := by omega
        by_cases hx : x.score = s
        · have hy : ¬ (y.score = s) := by omega
          simp [List.filter_cons, hx, hy, ih]
        · by_cases hy : y.score = s <;> simp [List.filter_cons, hx, hy, ih]

lemma filter_sortDesc (l : List SDoc) (s : Nat) :
    (sortDesc l).filter (fun y => decide (y.score = s))
      = l.filter (fun y => decide (y.score = s)) := by
  induction l with
  | nil => rfl
  | cons x xs ih =>
      unfold sortDesc
      rw [filter_insDesc]
      by_cases hx : x.score = s <;> simp [List.filter_cons, hx, ih]

/-- C6 (amended): the search pipeline splits the query on spaces, drops
tokens of length ≤ 3, scores each document by the number of remaining
keyword entries (counted with multiplicity) contained case-insensitively
in its text, keeps positive scores, sorts descending stably (corpus order
on ties) and truncates to 3; zero surviving tokens means zero matches. -/
theorem C6_search_pipeline (q : String) (corpus : List DocRec) :
    (keywordsOf q = [] → searchResults q corpus = [])
      ∧ (searchResults q corpus).length ≤ 3
      ∧ (∀ x ∈ searchResults q corpus, 0 < x.score ∧
          x.score = (keywordsOf q).countP (fun w => subInc (toLowerL x.doc.content.data) w))
      ∧ List.Pairwise (fun a b : SDoc => b.score ≤ a.score) (searchResults q corpus)
      ∧ (∀ s : Nat, (sortDesc (scoredFiltered q corpus)).filter (fun y => decide (y.score = s))
            = (scoredFiltered q corpus).filter (fun y => decide (y.score = s)))
      ∧ searchResults q corpus = (sortDesc (scoredFiltered q corpus)).take 3 := by
  refine ⟨?_, ?_, ?_, ?_, fun s => filter_sortDesc _ s, rfl⟩
  · intro hkw
    have hsf : scoredFiltered q corpus = [] := by
      unfold scoredFiltered
      rw [List.filter_eq_nil_iff]
      intro x hx
      obtain ⟨d, _, rfl⟩ := List.mem_map.mp hx
      simp [scoreOf, hkw]
    unfold searchResults
    rw [hsf]
    rfl
  · unfold searchResults
    rw [List.length_take]
    omega
  · intro x hx
    have hx2 : x ∈ sortDesc (scoredFiltered q corpus) :=
      List.take_subset 3 _ hx
    have hx3 : x ∈ scoredFiltered q corpus := mem_sortDesc.mp hx2
    obtain ⟨hxm, hxs⟩ := List.mem_filter.mp hx3
    obtain ⟨d, _, rfl⟩ := List.mem_map.mp hxm
    refine ⟨by simpa using hxs, ?_⟩
    rfl
  · exact List.Pairwise.sublist (List.take_sublist 3 _) (sortDesc_sorted _)

/-- Witness for C6: a query with no token longer than 3 yields no results,
and a matching document scores positively. -/
theorem C6_search_pipeline_witness :
    searchResults "hi ok" [DocRec.mk "a" "text"] = []
      ∧ 0 < (SDoc.mk (DocRec.mk "a" "refund policy") 1).score := by
  refine ⟨(C6_search_pipeline "hi ok" [DocRec.mk "a" "text"]).1 (by decide), ?_⟩
  exact ((C6_search_pipeline "refund now" [DocRec.mk "a" "refund policy"]).2.2.1
    (SDoc.mk (DocRec.mk "a" "refund policy") 1) (by decide)).1

/-- Scoring as the claim words it: each *distinct* surviving token counts
at most once regardless of repetition in the query. -/
def specScoreDistinct (q : String) (d : DocRec) : Nat :=
  ((keywordsOf q).dedup).countP fun w => subInc (toLowerL d.content.data) w

/-- The claim's pipeline with distinct-token scoring. -/
def specSearchDistinct (q : String) (corpus : List DocRec) : List SDoc :=
  (sortDesc ((corpus.map fun d => SDoc.mk d (specScoreDistinct q d)).filter
    fun x => decide (0 < x.score))).take 3

/-- Counterexample for C6 as stated: with the repeated-token query
`"refund refund policy"`, the code counts the repeated token twice and
ranks the `"refund"` document above the earlier `"policy"` document,
while distinct-token scoring ties them and keeps corpus order. -/
theorem C6_counterexample_distinct_scoring :
    searchResults "refund refund policy"
        [DocRec.mk "a" "policy stuff", DocRec.mk "b" "refund stuff"]
      ≠ specSearchDistinct "refund refund policy"
          [DocRec.mk "a" "policy stuff", DocRec.mk "b" "refund stuff"] := by
  decide

/-! ### Collateral generation: context selection (C10) and the delivery
fallback chain of variant 2 (C2) -/

/-- `topic.toLowerCase().split(" ")[0] || ""`. -/
def firstWordLower (topic : String) : List Char :=
  match splitSp (toLowerL topic.data) with
  | [] => []
  | w :: _ => w

/-- `documentKnowledge.filter(d => d.content.toLowerCase().includes(searchKeyword)).slice(0, 2)`. -/
def relevantDocs (topic : String) (corpus : List DocRec) : List DocRec :=
  (corpus.filter fun d => subInc (toLowerL d.content.data) (firstWordLower topic)).take 2

/-- C10: context documents for `generate_collateral` are selected solely by
the lowercased first space-delimited word of the topic — equal first words
give identical selections — and at most two documents are chosen. -/
theorem C10_context_selection (t1 t2 : String) (corpus : List DocRec)
    (h : firstWordLower t1 = firstWordLower t2) :
    relevantDocs t1 corpus = relevantDocs t2 corpus
      ∧ (relevantDocs t1 corpus).length ≤ 2 := by
  constructor
  · unfold relevantDocs
    rw [h]
  · unfold relevantDocs
    rw [List.length_take]
    omega

/-- Witness for C10: two topics sharing the first word select the same
context documents. -/
theorem C10_context_selection_witness :
    relevantDocs "Refund policy details"
        [DocRec.mk "a" "our refund rules", DocRec.mk "b" "shipping"]
      = relevantDocs "refund timeline"
          [DocRec.mk "a" "our refund rules", DocRec.mk "b" "shipping"] :=
  (C10_context_selection "Refund policy details" "refund timeline"
    [DocRec.mk "a" "our refund rules", DocRec.mk "b" "shipping"] (by decide)).1

/-- A delivery channel of the §4.5 orchestrator. -/
inductive Chan
  | cloud
  | email
  | inlineFallback
deriving DecidableEq, Repr

/-- The outcome of `generate_collateral` (variant 2). -/
inductive GenOut
  | aiFailed
  | cloudDoc (link : String)
  | emailedDraft
  | inlineDraft (preview : String)
deriving DecidableEq, Repr

/-- `s.substring(0, n)`. -/
def substrTo (n : Nat) (s : String) : String := String.mk (s.data.take n)

/-- The DRIVE → EMAIL → CHAT strategy of variant 2's `generate_collateral`
(lines 486–515): a successful Drive upload returns its link and stops; on
failure the draft is emailed to the admin when `EMAIL_USER` is configured;
when that also fails (or no user is configured) a 1000-character preview is
returned inline.  The second component records the channels attempted. -/
def generateCollateralV2 (aiRes : Except Unit String) (driveRes : Except Unit String)
    (emailUser : String) (mailRes : Except Unit Unit) : GenOut × List Chan :=
  match aiRes with
  | .error _ => (.aiFailed, [])
  | .ok content =>
    match driveRes with
    | .ok link => (.cloudDoc link, [.cloud])
    | .error _ =>
      if emailUser = "" then
        (.inlineDraft (substrTo 1000 content), [.cloud, .inlineFallback])
      else
        match mailRes with
        | .ok _ => (.emailedDraft, [.cloud, .email])
        | .error _ => (.inlineDraft (substrTo 1000 content), [.cloud, .email, .inlineFallback])

/-- C2: the delivery chain returns the CloudDoc link and stops when Drive
succeeds; returns the Email outcome without ever attempting Inline when
Drive fails and the email succeeds; and when both fail returns an Inline
outcome holding a bounded-length truncation of the content — the inline
step is a pure computation that cannot fail. -/
theorem C2_delivery_fallback (content : String) (driveRes : Except Unit String)
    (eu : String) (mailRes : Except Unit Unit) :
    (∀ link : String, driveRes = Except.ok link →
        generateCollateralV2 (Except.ok content) driveRes eu mailRes
          = (GenOut.cloudDoc link, [Chan.cloud]))
      ∧ (driveRes = Except.error () → eu ≠ "" → mailRes = Except.ok () →
          generateCollateralV2 (Except.ok content) driveRes eu mailRes
            = (GenOut.emailedDraft, [Chan.cloud, Chan.email])
          ∧ Chan.inlineFallback ∉
              (generateCollateralV2 (Except.ok content) driveRes eu mailRes).2)
      ∧ (driveRes = Except.error () → (eu = "" ∨ mailRes = Except.error ()) →
          (generateCollateralV2 (Except.ok content) driveRes eu mailRes).1
            = GenOut.inlineDraft (substrTo 1000 content)
          ∧ (substrTo 1000 content).length ≤ 1000) := by
  have hok : ∀ mr : Except Unit Unit, eu ≠ "" →
      generateCollateralV2 (Except.ok content) (Except.error ()) eu mr
        = (match mr with
           | Except.ok _ => (GenOut.emailedDraft, [Chan.cloud, Chan.email])
           | Except.error _ =>
              (GenOut.inlineDraft (substrTo 1000 content),
               [Chan.cloud, Chan.email, Chan.inlineFallback])) := by
    intro mr he
    unfold generateCollateralV2
    dsimp only
    rw [if_neg he]
  have hlen : (substrTo 1000 content).length ≤ 1000 := by
    have h1 : (substrTo 1000 content).length = (content.data.take 1000).length := rfl
    rw [h1, List.length_take]
    omega
  refine ⟨?_, ?_, ?_⟩
  · intro link hd
    subst hd
    rfl
  · intro hd he hm
    subst hd
    subst hm
    rw [hok (Except.ok ()) he]
    refine ⟨rfl, ?_⟩
    dsimp only
    decide
  · intro hd hor
    subst hd
    refine ⟨?_, hlen⟩
    by_cases he : eu = ""
    · subst he
      unfold generateCollateralV2
      dsimp only
      rw [if_pos rfl]
    · rcases hor with he2 | hm
      · exact absurd he2 he
      · subst hm
        rw [hok (Except.error ()) he]

/-- Witness for C2: with Drive and Email both failing, the inline preview
of the draft is returned. -/
theorem C2_delivery_fallback_witness :
    (generateCollateralV2 (Except.ok "the draft") (Except.error ()) "" (Except.error ())).1
      = GenOut.inlineDraft (substrTo 1000 "the draft")
      ∧ (substrTo 1000 "the draft").length ≤ 1000 :=
  (C2_delivery_fallback "the draft" (Except.error ()) "" (Except.error ())).2.2 rfl (Or.inl rfl)

/-! ### Tool-handler exception boundaries (C7)

Each handler is embedded as an `Except Unit String` computation: upstream
calls are oracle arguments whose `error` case models a rejected promise,
and `toISOString()` on an invalid date raises.  `exRecover` is the
`try { ... } catch { return text }` boundary each tool wraps its body in;
`search_knowledge_base` has no such boundary in the source, and its body
is embedded without one. -/

/-- `try { body } catch { return fallback }`. -/
def exRecover (x : Except Unit String) (fallback : String) : Except Unit String :=
  match x with
  | .ok s => .ok s
  | .error _ => .ok fallback

/-- `d.toISOString()`: raises a `RangeError` on an invalid date. -/
def jsToISO (d : Option Int) : Except Unit Int :=
  match d with
  | none => .error ()
  | some t => .ok t

/-- One `BUSY:` line of the availability reply. -/
def busyLine (ev : GEvent) : String :=
  match ev with
  | .timed s _ => "BUSY: " ++ fmtTimeIST s
  | .allDay _ => "BUSY: All Day"

/-- The availability status reply. -/
def statusText (dateStr : String) (evs : List GEvent) (slots : List Int) : String :=
  "STATUS FOR " ++ dateStr ++ ":\n" ++ String.intercalate "\n" (evs.map busyLine)
    ++ "\n" ++ String.intercalate ", " (slots.map fun t => toString t)

/-- `check_calendar_availability` (variant 1, lines 140–156). -/
def checkV1E (tz : Int) (dateStr : String) (listRes : Except Unit (List GEvent)) :
    Except Unit String :=
  exRecover (do
      let st ← jsToISO (parseIST dateStr)
      let evs ← listRes
      pure (statusText dateStr evs (calculateFreeSlotsV1 tz st evs)))
    "Error checking calendar."

/-- `book_appointment` (variant 1) as an exception-flow computation. -/
def bookV1E (dateTime : String) (insertRes : Except Unit Unit) (url : String)
    (fetchRes : Except Unit Unit) : Except Unit String :=
  exRecover (do
      let s ← jsToISO (parseIST dateTime)
      let _ ← insertRes
      let _ ← sendEmailViaRelay url fetchRes
      pure (successTextV1 s))
    "Error booking slot."

/-- `search_knowledge_base` (both variants): no `try/catch`, but the body
performs only total string work. -/
def searchE (q : String) (corpus : List DocRec) : Except Unit String :=
  pure (match searchResults q corpus with
        | [] => "No info found."
        | rs => "Found details:\n" ++ String.intercalate "\n\n"
            (rs.map fun r => "[Source: " ++ r.doc.filename ++ "]\n"
              ++ substrTo 500 r.doc.content ++ "..."))

/-- `generate_collateral` (variant 1, lines 203–263): AI failure is caught
and reported; the PDF block sits in its own `try/catch`; the relay mail
cannot raise. -/
def generateV1E (topic : String) (corpus : List DocRec) (recipient : Option String)
    (aiRes : Except Unit String) (pdfRes : Except Unit Unit)
    (fetchRes : Except Unit Unit) : Except Unit String :=
  let _ctx := relevantDocs topic corpus
  match aiRes with
  | .error _ => pure "AI Generation failed."
  | .ok _ =>
    exRecover (do
        let _ ← pdfRes
        let _ ← (match recipient with
          | some r => sendEmailViaRelay r fetchRes
          | none => Except.ok false)
        pure (match recipient with
          | some r => "I have created the PDF. I have also emailed it to " ++ r ++ "."
          | none => "I have created the PDF."))
      "Error saving PDF file."

/-- `check_calendar_availability` (variant 2, lines 400–419); `new
Date(date)` is passed as its parse result. -/
def checkV2E (tz : Int) (dateStr : String) (st : Option Int)
    (listRes : Except Unit (List GEvent)) : Except Unit String :=
  exRecover (do
      let s ← jsToISO st
      let evs ← listRes
      pure (statusText dateStr evs (calculateFreeSlotsV2 tz s evs)))
    "Error checking calendar."

/-- `book_appointment` (variant 2) as an exception-flow computation. -/
def bookV2E (st : Option Int) (insertRes mailRes : Except Unit Unit) :
    Except Unit String :=
  exRecover (do
      let _ ← jsToISO st
      let _ ← insertRes
      pure (match mailRes with
        | .ok _ => "Success. Booked and emailed."
        | .error _ => "Booked on calendar (Email failed)."))
    "Error booking slot."

/-- `send_email` (variant 2, lines 461–467). -/
def sendEmailV2E (mailRes : Except Unit Unit) : Except Unit String :=
  exRecover (do
      let _ ← mailRes
      pure "Email sent.")
    "Failed to send email."

/-- `generate_collateral` (variant 2) as an exception-flow computation. -/
def generateV2E (aiRes driveRes : Except Unit String) (eu : String)
    (mailRes : Except Unit Unit) : Except Unit String :=
  match aiRes with
  | .error _ => pure "AI Generation failed."
  | .ok content =>
    exRecover (do
        let link ← driveRes
        pure ("Created Google Doc: " ++ link))
      (if eu ≠ "" ∧ exOk mailRes = true then
        "I couldn't save to Drive (storage full), so I emailed the draft to you instead."
      else
        "I couldn't save to Drive or Email. Here is the draft:\n\n"
          ++ substrTo 1000 content ++ "... (truncated)")

lemma exRecover_ok (x : Except Unit String) (fb : String) :
    exOk (exRecover x fb) = true := by
  cases x <;> rfl

/-- C7: every tool operation, in both variants, yields a text reply for
every input and every upstream outcome — no exception escapes a handler. -/
theorem C7_no_exception_escapes (tz : Int) (dateStr q topic eu url : String)
    (recipient : Option String) (st : Option Int) (corpus : List DocRec)
    (listRes : Except Unit (List GEvent))
    (insertRes fetchRes mailRes pdfRes : Except Unit Unit)
    (aiRes driveRes : Except Unit String) :
    exOk (checkV1E tz dateStr listRes) = true
      ∧ exOk (bookV1E dateStr insertRes url fetchRes) = true
      ∧ exOk (searchE q corpus) = true
      ∧ exOk (generateV1E topic corpus recipient aiRes pdfRes fetchRes) = true
      ∧ exOk (checkV2E tz dateStr st listRes) = true
      ∧ exOk (bookV2E st insertRes mailRes) = true
      ∧ exOk (sendEmailV2E mailRes) = true
      ∧ exOk (generateV2E aiRes driveRes eu mailRes) = true := by
  refine ⟨exRecover_ok _ _, exRecover_ok _ _, rfl, ?_, exRecover_ok _ _,
    exRecover_ok _ _, exRecover_ok _ _, ?_⟩
  · unfold generateV1E
    cases aiRes with
    | error _ => rfl
    | ok _ => exact exRecover_ok _ _
  · unfold generateV2E
    cases aiRes with
    | error _ => rfl
    | ok _ => exact exRecover_ok _ _

end VoiceAgent
